import Mathlib

/-!
Model of the resume-matching backend found in backend/server.js.

The relational state (tables users, resume_uploads, candidates) is modelled
as lists of rows plus auto-increment counters.  Each HTTP handler becomes a
pure function from its request data and the database state to a response and
a new state.  External collaborators are modelled as parameters: the bcrypt
hash and compare functions, the jwt verification function, and the outcome
of the call to the external ML scoring service.  Temporary uploaded files
are tracked by path; a handler reports the set of paths it unlinked.
JavaScript string builtins used by the handlers (split, includes,
toLowerCase, parseInt, truthiness of optional values) are modelled on
character lists, and JSON.stringify / JSON.parse as used on the
matched_skills column (a JSON array of strings) are modelled by an
executable codec.
-/

namespace ResumeMatch

/-! ### JavaScript primitives -/

/-- Truthiness of an optional JS string: undefined and the empty string are falsy. -/
def jsTruthy : Option String → Bool
  | none => false
  | some s => s != ""

/-- JS expression a || b on optional strings. -/
def jsOrStr (a b : Option String) : Option String :=
  if jsTruthy a then a else b

/-- JS expression x || d producing a string default for an absent or empty value. -/
def jsOrDefault (x : Option String) (d : String) : String :=
  match x with
  | none => d
  | some s => if s = "" then d else s

/-- JS expression x || d on an optional number: undefined and 0 are falsy. -/
def jsOrInt (x : Option Int) (d : Int) : Int :=
  match x with
  | none => d
  | some n => if n = 0 then d else n

/-- Helper for jsSplitSpace: accumulates the current field in reverse. -/
def jsSplitSpaceAux : List Char → List Char → List String
  | [], cur => [String.mk cur.reverse]
  | c :: rest, cur =>
    if c = ' ' then String.mk cur.reverse :: jsSplitSpaceAux rest []
    else jsSplitSpaceAux rest (c :: cur)

/-- JS s.split(" "): split on every single space character. -/
def jsSplitSpace (s : String) : List String :=
  jsSplitSpaceAux s.data []

/-- Bool test that the first list is an initial segment of the second. -/
def listStartsWith : List Char → List Char → Bool
  | [], _ => true
  | _ :: _, [] => false
  | a :: as, b :: bs => a == b && listStartsWith as bs

/-- Bool test that sub occurs contiguously inside l. -/
def listContainsSub (sub : List Char) : List Char → Bool
  | [] => listStartsWith sub []
  | c :: rest => listStartsWith sub (c :: rest) || listContainsSub sub rest

/-- JS s.includes(sub). -/
def jsIncludes (s sub : String) : Bool :=
  listContainsSub sub.data s.data

/-- JS s.toLowerCase(), restricted to its ASCII action. -/
def jsToLower (s : String) : String :=
  String.mk (s.data.map Char.toLower)

/-- True when the list begins with a decimal digit. -/
def headIsDigit : List Char → Bool
  | [] => false
  | c :: _ => c.isDigit

/-- Accumulates the value of the leading run of decimal digits. -/
def parseDigits : List Char → Nat → Nat
  | [], acc => acc
  | c :: rest, acc =>
    if c.isDigit then parseDigits rest (acc * 10 + (c.toNat - '0'.toNat)) else acc

/-- JS parseInt on an optional string: skip leading whitespace, optional
sign, then a leading run of decimal digits; NaN (here: none) when no digit
follows. -/
def jsParseInt : Option String → Option Int
  | none => none
  | some s =>
    match s.data.dropWhile (fun c => c.isWhitespace) with
    | '-' :: rest => if headIsDigit rest then some (-(parseDigits rest 0 : Int)) else none
    | '+' :: rest => if headIsDigit rest then some ((parseDigits rest 0 : Int)) else none
    | l => if headIsDigit l then some ((parseDigits l 0 : Int)) else none

/-- JS parseInt(x) || d: NaN and 0 both fall back to the default. -/
def parseIntOr (x : Option String) (d : Int) : Int :=
  match jsParseInt x with
  | none => d
  | some n => if n = 0 then d else n

/-! ### JSON codec for the matched_skills column

JSON.stringify is applied in the handlers only to arrays of strings, and
JSON.parse only to text produced that way, so the codec is modelled for
that fragment: an executable serializer emitting the exact JSON.stringify
output format, and an executable parser for JSON arrays of strings. -/

/-- Lowercase hex digit for a value below 16. -/
def hexDigit (n : Nat) : Char :=
  if n < 10 then Char.ofNat ('0'.toNat + n) else Char.ofNat ('a'.toNat + (n - 10))

/-- Value of one hex digit character. -/
def decodeHex (c : Char) : Option Nat :=
  if '0' ≤ c ∧ c ≤ '9' then some (c.toNat - '0'.toNat)
  else if 'a' ≤ c ∧ c ≤ 'f' then some (c.toNat - 'a'.toNat + 10)
  else if 'A' ≤ c ∧ c ≤ 'F' then some (c.toNat - 'A'.toNat + 10)
  else none

/-- JSON string escaping of one character, as emitted by JSON.stringify:
quote and backslash get two-character escapes, the control characters with
short forms use them, the remaining control characters use \u00xx, and
every other character is emitted verbatim. -/
def encodeChar (c : Char) : List Char :=
  if c = '"' then ['\\', '"']
  else if c = '\\' then ['\\', '\\']
  else if c = '\x08' then ['\\', 'b']
  else if c = '\t' then ['\\', 't']
  else if c = '\n' then ['\\', 'n']
  else if c = '\x0c' then ['\\', 'f']
  else if c = '\r' then ['\\', 'r']
  else if c.toNat < 32 then ['\\', 'u', '0', '0', hexDigit (c.toNat / 16), hexDigit (c.toNat % 16)]
  else [c]

/-- Renders the items of a nonempty JSON string array, starting right after
the opening quote of the first item and ending with the closing bracket. -/
def renderInner : List String → List Char
  | [] => [']']
  | [s] => s.data.flatMap encodeChar ++ ['"', ']']
  | s :: rest => s.data.flatMap encodeChar ++ '"' :: ',' :: '"' :: renderInner rest

/-- JSON.stringify of an array of strings. -/
def stringifySkills : List String → String
  | [] => "[]"
  | l => String.mk ('[' :: '"' :: renderInner l)

/-- Scanner for the body of a JSON string array, entered right after an
opening quote; cur holds the current item reversed, items the finished
items reversed. -/
def scanItems (cs : List Char) (cur : List Char) (items : List String) : Option (List String) :=
  match cs, cur, items with
  | '"' :: ',' :: '"' :: rest, cur, items =>
      scanItems rest [] (String.mk cur.reverse :: items)
  | ['"', ']'], cur, items => some ((String.mk cur.reverse :: items).reverse)
  | '"' :: _, _, _ => none
  | '\\' :: e :: rest, cur, items =>
      if e = '"' then scanItems rest ('"' :: cur) items
      else if e = '\\' then scanItems rest ('\\' :: cur) items
      else if e = '/' then scanItems rest ('/' :: cur) items
      else if e = 'b' then scanItems rest ('\x08' :: cur) items
      else if e = 'f' then scanItems rest ('\x0c' :: cur) items
      else if e = 'n' then scanItems rest ('\n' :: cur) items
      else if e = 'r' then scanItems rest ('\r' :: cur) items
      else if e = 't' then scanItems rest ('\t' :: cur) items
      else if e = 'u' then
        match rest with
        | h1 :: h2 :: h3 :: h4 :: rest2 =>
          match decodeHex h1, decodeHex h2, decodeHex h3, decodeHex h4 with
          | some a, some b, some c, some d =>
            scanItems rest2 (Char.ofNat (((a * 16 + b) * 16 + c) * 16 + d) :: cur) items
          | _, _, _, _ => none
        | _ => none
      else none
  | c :: rest, cur, items =>
      scanItems rest (c :: cur) items
  | [], _, _ => none
  termination_by structural cs

/-- JSON.parse for a JSON array of strings; none on any other input. -/
def parseSkillList (s : String) : Option (List String) :=
  match s.data with
  | '[' :: ']' :: rest => if rest = [] then some [] else none
  | '[' :: '"' :: rest => scanItems rest [] []
  | _ => none

/-! ### Data model: the three tables and the database state -/

/-- Row of the users table. -/
structure UserRow where
  id : Nat
  name : Option String
  email : String
  password : String
  role : String
  deriving DecidableEq

/-- Row of the resume_uploads table (an Upload Batch). -/
structure UploadRow where
  id : Nat
  user_id : Nat
  job_role : String
  job_description : String
  total_resumes : Int
  required_candidates : Int
  deriving DecidableEq

/-- Row of the candidates table; matched_skills holds the serialized JSON text. -/
structure CandidateRow where
  id : Nat
  upload_id : Nat
  filename : String
  candidate_name : String
  score : ℚ
  semantic_score : ℚ
  feature_score : ℚ
  matched_skills : String
  rank_position : Int
  deriving DecidableEq

/-- Database state: the three tables plus their auto-increment counters. -/
structure DB where
  users : List UserRow
  resume_uploads : List UploadRow
  candidates : List CandidateRow
  nextUserId : Nat
  nextUploadId : Nat
  nextCandidateId : Nat
  deriving DecidableEq

/-! ### Session issuer: POST /api/login -/

/-- Request body of POST /api/login. -/
structure LoginReq where
  email : Option String
  password : Option String
  name : Option String
  role : Option String

/-- Payload embedded into the signed session token. -/
structure TokenPayload where
  userId : Nat
  email : String
  role : String
  deriving DecidableEq

/-- User object sent back in the login response. -/
structure UserOut where
  id : Nat
  name : Option String
  email : String
  role : String
  deriving DecidableEq

/-- Outcome of POST /api/login. -/
inductive LoginResult where
  | badRequest (message : String)
  | unauthorized (message : String)
  | serverError (message : String)
  | ok (token : TokenPayload) (user : UserOut)
  deriving DecidableEq

/-- Role normalization on signup: role && (role.toLowerCase().includes("hr")
|| role === "Hr") ? "Hr" : "Student". -/
def normalizeRole (role : Option String) : String :=
  match role with
  | none => "Student"
  | some r =>
    if r = "" then "Student"
    else if jsIncludes (jsToLower r) "hr" || r = "Hr" then "Hr" else "Student"

/-- Row inserted for a previously unseen email: name || null, the hashed
password, and the normalized role. -/
def newUserRow (req : LoginReq) (hash : String → String) (id : Nat) : UserRow :=
  { id := id
    name := match req.name with
            | none => none
            | some n => if n = "" then none else some n
    email := req.email.getD ""
    password := hash (req.password.getD "")
    role := normalizeRole req.role }

/-- Handler of POST /api/login.  The bcrypt hash and compare functions are
passed as parameters. -/
def login (req : LoginReq) (hash : String → String) (compare : String → String → Bool)
    (db : DB) : LoginResult × DB :=
  if !jsTruthy req.email || !jsTruthy req.password then
    (.badRequest "Email and password are required", db)
  else
    let email := req.email.getD ""
    let password := req.password.getD ""
    match db.users.filter (fun u => u.email == email) with
    | [] =>
      let row : UserRow := newUserRow req hash db.nextUserId
      let db' : DB := { db with users := db.users ++ [row], nextUserId := db.nextUserId + 1 }
      match db'.users.filter (fun u => u.id == db.nextUserId) with
      | [] => (.serverError "Internal server error", db')
      | u :: _ =>
        (.ok { userId := u.id, email := u.email, role := u.role }
            { id := u.id, name := u.name, email := u.email, role := u.role }, db')
    | u :: _ =>
      if compare password u.password then
        (.ok { userId := u.id, email := u.email, role := u.role }
            { id := u.id, name := u.name, email := u.email, role := u.role }, db)
      else
        (.unauthorized "Invalid email or password", db)

/-! ### Access guard: authenticateToken middleware -/

/-- Identity decoded from a verified session token. -/
structure Decoded where
  userId : Nat
  email : String
  role : String
  deriving DecidableEq

/-- Outcome of the access guard. -/
inductive AuthResult where
  | unauthorized (message : String)
  | admitted (user : Decoded)
  deriving DecidableEq

/-- Token extraction: authHeader && authHeader.split(" ")[1], with JS
falsiness of an absent header and of an empty extracted token. -/
def extractBearer (authLower authUpper : Option String) : Option String :=
  match jsOrStr authLower authUpper with
  | none => none
  | some h =>
    if h = "" then none
    else
      match (jsSplitSpace h)[1]? with
      | none => none
      | some t => if t = "" then none else some t

/-- Handler of the authenticateToken middleware.  The jwt verification
function is passed as a parameter; it returns none on an invalid signature
or an expired token. -/
def authenticateToken (authLower authUpper : Option String)
    (verify : String → Option Decoded) : AuthResult :=
  match extractBearer authLower authUpper with
  | none => .unauthorized "Missing token"
  | some t =>
    match verify t with
    | none => .unauthorized "Invalid or expired token"
    | some d => .admitted d

/-! ### Matching orchestrator: POST /api/match-resumes -/

/-- A temporary file buffered by multer. -/
structure TempFile where
  path : String
  originalname : String
  deriving DecidableEq

/-- One ranked entry of the external ML response; optional fields model
absent JSON members. -/
structure MLCandidate where
  filename : String
  candidate_name : Option String
  score : ℚ
  semantic_score : ℚ
  feature_score : ℚ
  matched_skills : Option (List String)
  rank_position : Option Int
  deriving DecidableEq

/-- Body of a successful external ML response. -/
structure MLResults where
  total_resumes : Int
  top_candidates : List MLCandidate
  deriving DecidableEq

/-- Outcome of the call to the external ML scoring service: a non-success
HTTP status with its status text, or a parsed JSON body. -/
inductive MLOutcome where
  | failure (statusText : String)
  | success (results : MLResults)

/-- Request data of POST /api/match-resumes. -/
structure MatchReq where
  jobRole : Option String
  jobDescription : Option String
  requiredSkills : Option String
  minEducation : Option String
  minExperience : Option String
  topN : Option String
  files : List TempFile

/-- Response of POST /api/match-resumes; the 500 body also carries an error
detail field, which is not modelled. -/
inductive MatchResponse where
  | badRequest (message : String)
  | serverError (message : String)
  | ok (uploadId : Nat) (results : MLResults)
  deriving DecidableEq

/-- Full outcome of one POST /api/match-resumes request: response, database
state, the paths of the temporary files that were unlinked, and whether the
external service was contacted. -/
structure MatchOutcome where
  response : MatchResponse
  db : DB
  deletedFiles : List String
  calledML : Bool
  deriving DecidableEq

/-- The candidates row inserted for one external entry: absent or empty
candidate_name falls back to the placeholder, matched_skills is
JSON-serialized with [] for an absent list, rank_position falls back to 0. -/
def candidateRowOf (uploadId cid : Nat) (e : MLCandidate) : CandidateRow :=
  { id := cid
    upload_id := uploadId
    filename := e.filename
    candidate_name := jsOrDefault e.candidate_name "Unknown Candidate"
    score := e.score
    semantic_score := e.semantic_score
    feature_score := e.feature_score
    matched_skills := stringifySkills (e.matched_skills.getD [])
    rank_position := jsOrInt e.rank_position 0 }

/-- Sequential insertion of the candidate rows.  failAt models a
persistence fault: the insert statement with that overall index (0 is the
batch insert, the candidate inserts start at 1) throws.  Returns the state
reached and whether the loop completed. -/
def insertCandidates (uploadId : Nat) (failAt : Option Nat) :
    List MLCandidate → DB → Nat → DB × Bool
  | [], db, _ => (db, true)
  | e :: es, db, k =>
    if failAt = some k then (db, false)
    else
      insertCandidates uploadId failAt es
        { db with
            candidates := db.candidates ++ [candidateRowOf uploadId db.nextCandidateId e]
            nextCandidateId := db.nextCandidateId + 1 }
        (k + 1)

/-- The candidate rows a completed insertion loop appends, with ids from
startId onward. -/
def newCandidateRows (uploadId startId : Nat) : List MLCandidate → List CandidateRow
  | [] => []
  | e :: es => candidateRowOf uploadId startId e :: newCandidateRows uploadId (startId + 1) es

/-- Handler of POST /api/match-resumes.  ml is the outcome of the external
call, failAt the persistence fault model. -/
def matchResumes (userId : Nat) (req : MatchReq) (ml : MLOutcome) (failAt : Option Nat)
    (db : DB) : MatchOutcome :=
  let paths := req.files.map TempFile.path
  if req.files.length < 5 ∨ req.files.length > 20 then
    { response := .badRequest "Please upload between 5 and 20 resumes"
      db := db, deletedFiles := paths, calledML := false }
  else if !jsTruthy req.jobRole || !jsTruthy req.jobDescription then
    { response := .badRequest "Job role and description are required"
      db := db, deletedFiles := paths, calledML := false }
  else
    match ml with
    | .failure _ =>
      { response := .serverError "Error processing resumes"
        db := db, deletedFiles := paths, calledML := true }
    | .success results =>
      if failAt = some 0 then
        { response := .serverError "Error processing resumes"
          db := db, deletedFiles := paths, calledML := true }
      else
        let uploadId := db.nextUploadId
        let uploadRow : UploadRow :=
          { id := uploadId
            user_id := userId
            job_role := req.jobRole.getD ""
            job_description := req.jobDescription.getD ""
            total_resumes := results.total_resumes
            required_candidates := parseIntOr req.topN 5 }
        let db1 : DB :=
          { db with
              resume_uploads := db.resume_uploads ++ [uploadRow]
              nextUploadId := db.nextUploadId + 1 }
        match insertCandidates uploadId failAt results.top_candidates db1 1 with
        | (db2, true) =>
          { response := .ok uploadId results
            db := db2, deletedFiles := paths, calledML := true }
        | (db2, false) =>
          { response := .serverError "Error processing resumes"
            db := db2, deletedFiles := paths, calledML := true }

/-! ### Dashboard aggregator: GET /api/candidates/:uploadId and GET /api/dashboard-stats -/

/-- Candidate object of the GET /api/candidates response: the row with
matched_skills replaced by its JSON.parse result. -/
structure CandidateOut where
  id : Nat
  upload_id : Nat
  filename : String
  candidate_name : String
  score : ℚ
  semantic_score : ℚ
  feature_score : ℚ
  matched_skills : List String
  rank_position : Int
  deriving DecidableEq

/-- Spread of one candidates row with matched_skills parsed; none when the
stored text is not a JSON array of strings. -/
def candidateOut (c : CandidateRow) : Option CandidateOut :=
  match parseSkillList c.matched_skills with
  | none => none
  | some skills =>
    some { id := c.id, upload_id := c.upload_id, filename := c.filename
           candidate_name := c.candidate_name, score := c.score
           semantic_score := c.semantic_score, feature_score := c.feature_score
           matched_skills := skills, rank_position := c.rank_position }

/-- The response mapping candidates.map(c => ({...c, matched_skills:
JSON.parse(c.matched_skills)})); a parse failure throws into the catch
block. -/
def mapParse : List CandidateRow → Option (List CandidateOut)
  | [] => some []
  | c :: rest =>
    match candidateOut c, mapParse rest with
    | some o, some os => some (o :: os)
    | _, _ => none

/-- ORDER BY rank_position comparison. -/
def rankLe (a b : CandidateRow) : Bool :=
  a.rank_position ≤ b.rank_position

/-- Response of GET /api/candidates/:uploadId. -/
inductive CandidatesResponse where
  | notFound (message : String)
  | serverError (message : String)
  | ok (upload : UploadRow) (candidates : List CandidateOut)
  deriving DecidableEq

/-- Handler of GET /api/candidates/:uploadId. -/
def getCandidatesForBatch (userId uploadId : Nat) (db : DB) : CandidatesResponse :=
  match db.resume_uploads.filter (fun r => r.id == uploadId && r.user_id == userId) with
  | [] => .notFound "Upload not found"
  | u :: _ =>
    let rows := (db.candidates.filter (fun c => c.upload_id == uploadId)).mergeSort rankLe
    match mapParse rows with
    | none => .serverError "Internal server error"
    | some outs => .ok u outs

/-- Response of GET /api/dashboard-stats. -/
structure DashboardStats where
  totalUploads : Nat
  totalCandidates : Nat
  avgScore : Int
  deriving DecidableEq

/-- SQL join candidates JOIN resume_uploads ON c.upload_id = r.id WHERE
r.user_id = userId, listing one copy of the candidate row per matching
upload row. -/
def userCandidateJoin (userId : Nat) (db : DB) : List CandidateRow :=
  db.candidates.flatMap fun c =>
    (db.resume_uploads.filter fun r => r.id == c.upload_id && r.user_id == userId).map
      fun _ => c

/-- Handler of GET /api/dashboard-stats: COUNT of the user uploads, COUNT
over the join, AVG(score) over the join (NULL when the join is empty,
mapped to 0 by the response, and Math.round otherwise). -/
def getDashboardStats (userId : Nat) (db : DB) : DashboardStats :=
  let joined := userCandidateJoin userId db
  let avgOpt : Option ℚ :=
    match joined with
    | [] => none
    | _ => some ((joined.map CandidateRow.score).sum / (joined.length : ℚ))
  { totalUploads := (db.resume_uploads.filter fun r => r.user_id == userId).length
    totalCandidates := joined.length
    avgScore := match avgOpt with | none => 0 | some q => round q }

/-- Spread of one candidates row with matched_skills parsed, defaulting to
[] when the text is not a string array; coincides with candidateOut when
the parse succeeds. -/
def candidateOutD (c : CandidateRow) : CandidateOut :=
  { id := c.id, upload_id := c.upload_id, filename := c.filename
    candidate_name := c.candidate_name, score := c.score
    semantic_score := c.semantic_score, feature_score := c.feature_score
    matched_skills := (parseSkillList c.matched_skills).getD []
    rank_position := c.rank_position }

/-! ### Concrete fixtures used by the witness theorems -/

/-- Stand-in bcrypt.hash with a fixed salt. -/
def hash0 (s : String) : String := "h(" ++ s ++ ")"

/-- Stand-in bcrypt.compare matching hash0. -/
def compare0 (p stored : String) : Bool := stored == hash0 p

/-- Stand-in jwt.verify accepting exactly one token. -/
def verifyStub (t : String) : Option Decoded :=
  if t == "goodtok" then some { userId := 1, email := "alice@example.com", role := "Hr" }
  else none

/-- Sample existing user. -/
def userAlice : UserRow :=
  { id := 1, name := some "Alice", email := "alice@example.com"
    password := hash0 "secret", role := "Hr" }

/-- Database holding only userAlice. -/
def dbWithAlice : DB :=
  { users := [userAlice], resume_uploads := [], candidates := []
    nextUserId := 2, nextUploadId := 1, nextCandidateId := 1 }

/-- Login request with a previously unseen email and an hr-flavoured role. -/
def reqNewHr : LoginReq :=
  { email := some "bob@example.com", password := some "pw123456"
    name := some "Bob", role := some "Hr Professional" }

/-- Login request for userAlice with a wrong password. -/
def reqAliceWrong : LoginReq :=
  { email := some "alice@example.com", password := some "wrongpw", name := none, role := none }

/-- Login request for userAlice with the right password and a conflicting
profile. -/
def reqAliceRight : LoginReq :=
  { email := some "alice@example.com", password := some "secret"
    name := some "Mallory", role := some "Student" }

/-- Temporary files named after a list of resumes. -/
def filesOf (names : List String) : List TempFile :=
  names.map fun n => { path := "uploads/" ++ n, originalname := n }

/-- Valid matching request carrying five files. -/
def reqFive : MatchReq :=
  { jobRole := some "Backend Engineer", jobDescription := some "Build APIs"
    requiredSkills := some "python, sql", minEducation := none, minExperience := none
    topN := some "3", files := filesOf ["a", "b", "c", "d", "e"] }

/-- Matching request carrying only three files. -/
def reqThree : MatchReq := { reqFive with files := filesOf ["a", "b", "c"] }

/-- Sample top-ranked external entry. -/
def mlEntryA : MLCandidate :=
  { filename := "a.pdf", candidate_name := some "Ann", score := 90
    semantic_score := 88, feature_score := 92
    matched_skills := some ["python", "sql"], rank_position := some 1 }

/-- Sample second external entry with absent optional fields. -/
def mlEntryB : MLCandidate :=
  { filename := "b.pdf", candidate_name := none, score := 80
    semantic_score := 78, feature_score := 82
    matched_skills := none, rank_position := some 2 }

/-- Sample external response with two ranked entries. -/
def mlResultsTwo : MLResults := { total_resumes := 5, top_candidates := [mlEntryA, mlEntryB] }

/-- Sample persisted upload batch owned by userAlice. -/
def uploadOne : UploadRow :=
  { id := 1, user_id := 1, job_role := "Backend Engineer", job_description := "Build APIs"
    total_resumes := 5, required_candidates := 3 }

/-- Persisted candidate row of batch 1 with rank 2. -/
def candRowOne : CandidateRow :=
  { id := 1, upload_id := 1, filename := "a.pdf", candidate_name := "Ann", score := 90
    semantic_score := 88, feature_score := 92
    matched_skills := stringifySkills ["python"], rank_position := 2 }

/-- Persisted candidate row of batch 1 with rank 1. -/
def candRowTwo : CandidateRow :=
  { id := 2, upload_id := 1, filename := "b.pdf", candidate_name := "Unknown Candidate", score := 80
    semantic_score := 78, feature_score := 82
    matched_skills := stringifySkills [], rank_position := 1 }

/-- Database holding one persisted batch of userAlice with two candidates. -/
def dbBatch : DB :=
  { users := [userAlice], resume_uploads := [uploadOne], candidates := [candRowOne, candRowTwo]
    nextUserId := 2, nextUploadId := 2, nextCandidateId := 3 }

/-! ### Round trip of the matched_skills JSON codec -/

theorem mk_data (s : String) : String.mk s.data = s := rfl

theorem decodeHex_hexDigit : ∀ n : Nat, n < 16 → decodeHex (hexDigit n) = some n := by decide

/-- Scanning a \uxxxx escape pushes the encoded character. -/
theorem scanItems_unicode (h1 h2 h3 h4 : Char) (a b c d : Nat) (rest cur : List Char)
    (items : List String) (ha : decodeHex h1 = some a) (hb : decodeHex h2 = some b)
    (hc : decodeHex h3 = some c) (hd : decodeHex h4 = some d) :
    scanItems ('\\' :: 'u' :: h1 :: h2 :: h3 :: h4 :: rest) cur items =
      scanItems rest (Char.ofNat (((a * 16 + b) * 16 + c) * 16 + d) :: cur) items := by
  simp +decide [scanItems, ha, hb, hc, hd]

/-- Scanning the escape of one character pushes exactly that character. -/
theorem scanItems_encodeChar (c : Char) (rest cur : List Char) (items : List String) :
    scanItems (encodeChar c ++ rest) cur items = scanItems rest (c :: cur) items := by
  by_cases h1 : c = '"'
  · subst h1
    rcases rest with _ | ⟨x1, _ | ⟨x2, _ | ⟨x3, _ | ⟨x4, r⟩⟩⟩⟩ <;> simp +decide [scanItems, encodeChar]
  by_cases h2 : c = '\\'
  · subst h2
    rcases rest with _ | ⟨x1, _ | ⟨x2, _ | ⟨x3, _ | ⟨x4, r⟩⟩⟩⟩ <;> simp +decide [scanItems, encodeChar]
  by_cases h3 : c = '\x08'
  · subst h3
    rcases rest with _ | ⟨x1, _ | ⟨x2, _ | ⟨x3, _ | ⟨x4, r⟩⟩⟩⟩ <;> simp +decide [scanItems, encodeChar]
  by_cases h4 : c = '\t'
  · subst h4
    rcases rest with _ | ⟨x1, _ | ⟨x2, _ | ⟨x3, _ | ⟨x4, r⟩⟩⟩⟩ <;> simp +decide [scanItems, encodeChar]
  by_cases h5 : c = '\n'
  · subst h5
    rcases rest with _ | ⟨x1, _ | ⟨x2, _ | ⟨x3, _ | ⟨x4, r⟩⟩⟩⟩ <;> simp +decide [scanItems, encodeChar]
  by_cases h6 : c = '\x0c'
  · subst h6
    rcases rest with _ | ⟨x1, _ | ⟨x2, _ | ⟨x3, _ | ⟨x4, r⟩⟩⟩⟩ <;> simp +decide [scanItems, encodeChar]
  by_cases h7 : c = '\r'
  · subst h7
    rcases rest with _ | ⟨x1, _ | ⟨x2, _ | ⟨x3, _ | ⟨x4, r⟩⟩⟩⟩ <;> simp +decide [scanItems, encodeChar]
  by_cases h8 : c.toNat < 32
  · have henc : encodeChar c =
        ['\\', 'u', '0', '0', hexDigit (c.toNat / 16), hexDigit (c.toNat % 16)] := by
      unfold encodeChar
      simp [h1, h2, h3, h4, h5, h6, h7, h8]
    rw [henc, List.cons_append, List.cons_append, List.cons_append, List.cons_append,
      List.cons_append, List.cons_append, List.nil_append,
      scanItems_unicode _ _ _ _ 0 0 (c.toNat / 16) (c.toNat % 16) rest cur items
        (by decide) (by decide) (decodeHex_hexDigit _ (by omega)) (decodeHex_hexDigit _ (by omega))]
    have hval : ((0 * 16 + 0) * 16 + c.toNat / 16) * 16 + c.toNat % 16 = c.toNat := by omega
    rw [hval, Char.ofNat_toNat]
  · have henc : encodeChar c = [c] := by
      unfold encodeChar
      simp [h1, h2, h3, h4, h5, h6, h7, h8]
    rw [henc, List.singleton_append, scanItems.eq_def]
    split <;> simp_all

/-- Stepping the scanner over a closing quote followed by a separator and a
new opening quote. -/
theorem scanItems_itemSep (X cur : List Char) (items : List String) :
    scanItems ('"' :: ',' :: '"' :: X) cur items =
      scanItems X [] (String.mk cur.reverse :: items) := by
  simp [scanItems]

/-- Stepping the scanner over the final closing quote and bracket. -/
theorem scanItems_finish (cur : List Char) (items : List String) :
    scanItems ['"', ']'] cur items = some ((String.mk cur.reverse :: items).reverse) := by
  simp [scanItems]

/-- Scanning an encoded string body accumulates its characters. -/
theorem scanItems_stringBody (cl : List Char) (rest cur : List Char) (items : List String) :
    scanItems (cl.flatMap encodeChar ++ '"' :: rest) cur items =
      scanItems ('"' :: rest) (cl.reverse ++ cur) items := by
  induction cl generalizing cur with
  | nil => simp
  | cons c cl ih =>
    rw [List.flatMap_cons, List.append_assoc, scanItems_encodeChar, ih]
    simp [List.append_assoc]

/-- Scanning the rendered items recovers them, appended to the reversed
accumulator. -/
theorem scanItems_renderInner :
    ∀ (ls : List String) (items : List String), ls ≠ [] →
      scanItems (renderInner ls) [] items = some (items.reverse ++ ls) := by
  intro ls
  induction ls with
  | nil => intro items h; exact absurd rfl h
  | cons s rest ih =>
    intro items _
    cases rest with
    | nil =>
      simp only [renderInner]
      rw [scanItems_stringBody, scanItems_finish]
      simp [mk_data]
    | cons s2 rest2 =>
      simp only [renderInner]
      rw [scanItems_stringBody, scanItems_itemSep]
      simp only [List.append_nil, List.reverse_reverse, mk_data]
      rw [ih (s :: items) (by simp)]
      simp

/-- JSON.parse recovers every string list from its JSON.stringify text. -/
theorem parseSkillList_stringifySkills (l : List String) :
    parseSkillList (stringifySkills l) = some l := by
  cases l with
  | nil => decide
  | cons s rest =>
    have h1 : stringifySkills (s :: rest) = String.mk ('[' :: '"' :: renderInner (s :: rest)) := by
      simp [stringifySkills]
    have h2 : parseSkillList (String.mk ('[' :: '"' :: renderInner (s :: rest))) =
        scanItems (renderInner (s :: rest)) [] [] := by
      simp [parseSkillList]
    rw [h1, h2, scanItems_renderInner (s :: rest) [] (by simp)]
    rfl

/-! ### Execution lemmas for the matching orchestrator -/

theorem jsOrInt_some (r : Int) : jsOrInt (some r) 0 = r := by
  by_cases h : r = 0 <;> simp [jsOrInt, h]

/-- A fault-free insertion loop appends one row per entry and bumps the
counter. -/
theorem insertCandidates_none (uploadId : Nat) :
    ∀ (es : List MLCandidate) (db : DB) (k : Nat),
      insertCandidates uploadId none es db k =
        ({ db with
            candidates := db.candidates ++ newCandidateRows uploadId db.nextCandidateId es
            nextCandidateId := db.nextCandidateId + es.length }, true) := by
  intro es
  induction es with
  | nil => intro db k; simp [insertCandidates, newCandidateRows]
  | cons e es ih =>
    intro db k
    rw [insertCandidates]
    simp only [reduceCtorEq, if_false]
    rw [ih]
    simp [newCandidateRows, List.append_assoc]
    omega

theorem newCandidateRows_length (uploadId startId : Nat) (es : List MLCandidate) :
    (newCandidateRows uploadId startId es).length = es.length := by
  induction es generalizing startId with
  | nil => rfl
  | cons e es ih => simp [newCandidateRows, ih]

theorem newCandidateRows_getElem (uploadId startId : Nat) (es : List MLCandidate) :
    ∀ i, (newCandidateRows uploadId startId es)[i]? =
      (es[i]?).map fun e => candidateRowOf uploadId (startId + i) e := by
  induction es generalizing startId with
  | nil => intro i; simp [newCandidateRows]
  | cons e es ih =>
    intro i
    cases i with
    | zero => simp [newCandidateRows]
    | succ j =>
      have harith : startId + 1 + j = startId + (j + 1) := by omega
      simp only [newCandidateRows, List.getElem?_cons_succ, ih (startId + 1) j, harith]

theorem newCandidateRows_upload (uploadId startId : Nat) (es : List MLCandidate) :
    ∀ c ∈ newCandidateRows uploadId startId es, c.upload_id = uploadId := by
  induction es generalizing startId with
  | nil => simp [newCandidateRows]
  | cons e es ih =>
    intro c hc
    rcases List.mem_cons.mp hc with rfl | hmem
    · rfl
    · exact ih (startId + 1) c hmem

theorem newCandidateRows_map_skills (uploadId startId : Nat) (es : List MLCandidate) :
    (newCandidateRows uploadId startId es).map
        (fun c => (c.filename, (parseSkillList c.matched_skills).getD [])) =
      es.map (fun e => (e.filename, e.matched_skills.getD [])) := by
  induction es generalizing startId with
  | nil => rfl
  | cons e es ih =>
    simp [newCandidateRows, candidateRowOf, parseSkillList_stringifySkills, ih]

/-- Full run of the handler on a valid request with a successful external
call and no persistence fault. -/
theorem matchResumes_success_run (userId : Nat) (req : MatchReq) (results : MLResults) (db : DB)
    (hcount : ¬(req.files.length < 5 ∨ req.files.length > 20))
    (hrole : jsTruthy req.jobRole = true)
    (hdesc : jsTruthy req.jobDescription = true) :
    matchResumes userId req (.success results) none db =
      { response := .ok db.nextUploadId results
        db := { db with
                  resume_uploads := db.resume_uploads ++
                    [{ id := db.nextUploadId
                       user_id := userId
                       job_role := req.jobRole.getD ""
                       job_description := req.jobDescription.getD ""
                       total_resumes := results.total_resumes
                       required_candidates := parseIntOr req.topN 5 }]
                  nextUploadId := db.nextUploadId + 1
                  candidates := db.candidates ++
                    newCandidateRows db.nextUploadId db.nextCandidateId results.top_candidates
                  nextCandidateId := db.nextCandidateId + results.top_candidates.length }
        deletedFiles := req.files.map TempFile.path
        calledML := true } := by
  unfold matchResumes
  rw [if_neg hcount]
  rw [if_neg (by simp [hrole, hdesc])]
  simp only [reduceCtorEq, if_false]
  rw [insertCandidates_none]

/-! ### Claims C1, C2, C5 -/

/-- C1: for every matching submission that passes validation and whose
external call succeeds with N ranked entries (each carrying a rank
position) and whose persistence succeeds, the handler inserts exactly one
resume_uploads row capturing the user id, job role, job description, the
reported total resume count and the requested top-candidate count, and
exactly N candidates rows in the external order whose rank_position equals
the rank_position of the corresponding entry, and returns the new batch id
with the raw external payload. -/
theorem matchResumes_success_inserts (userId : Nat) (req : MatchReq) (results : MLResults)
    (db : DB)
    (hcount : ¬(req.files.length < 5 ∨ req.files.length > 20))
    (hrole : jsTruthy req.jobRole = true)
    (hdesc : jsTruthy req.jobDescription = true)
    (hrank : ∀ e ∈ results.top_candidates, e.rank_position.isSome = true) :
    (matchResumes userId req (.success results) none db).response =
        .ok db.nextUploadId results ∧
    (matchResumes userId req (.success results) none db).db.resume_uploads =
        db.resume_uploads ++
          [{ id := db.nextUploadId, user_id := userId
             job_role := req.jobRole.getD "", job_description := req.jobDescription.getD ""
             total_resumes := results.total_resumes
             required_candidates := parseIntOr req.topN 5 }] ∧
    (matchResumes userId req (.success results) none db).db.candidates =
        db.candidates ++
          newCandidateRows db.nextUploadId db.nextCandidateId results.top_candidates ∧
    (newCandidateRows db.nextUploadId db.nextCandidateId results.top_candidates).length =
        results.top_candidates.length ∧
    ∀ i, ∀ hi : i < results.top_candidates.length,
      (newCandidateRows db.nextUploadId db.nextCandidateId results.top_candidates)[i]? =
          some (candidateRowOf db.nextUploadId (db.nextCandidateId + i)
            (results.top_candidates.get ⟨i, hi⟩)) ∧
      ((newCandidateRows db.nextUploadId db.nextCandidateId results.top_candidates)[i]?).map
          CandidateRow.rank_position =
        (results.top_candidates.get ⟨i, hi⟩).rank_position := by
  rw [matchResumes_success_run userId req results db hcount hrole hdesc]
  refine ⟨rfl, rfl, rfl, newCandidateRows_length _ _ _, ?_⟩
  intro i hi
  have hget : results.top_candidates[i]? = some (results.top_candidates.get ⟨i, hi⟩) := by
    rw [List.getElem?_eq_getElem hi, List.get_eq_getElem]
  have hmem : results.top_candidates.get ⟨i, hi⟩ ∈ results.top_candidates := by
    rw [List.get_eq_getElem]
    exact List.getElem_mem hi
  obtain ⟨r, hr⟩ := Option.isSome_iff_exists.mp (hrank _ hmem)
  constructor
  · rw [newCandidateRows_getElem, hget]
    rfl
  · rw [newCandidateRows_getElem, hget]
    rw [List.get_eq_getElem] at hr
    simp [candidateRowOf, hr, jsOrInt_some]

/-- Witness for C1 at a five-file request and a two-entry external result. -/
theorem matchResumes_success_inserts_witness :
    (matchResumes 1 reqFive (.success mlResultsTwo) none dbWithAlice).response =
        .ok dbWithAlice.nextUploadId mlResultsTwo ∧
    (newCandidateRows dbWithAlice.nextUploadId dbWithAlice.nextCandidateId
        mlResultsTwo.top_candidates).length = mlResultsTwo.top_candidates.length :=
  ⟨(matchResumes_success_inserts 1 reqFive mlResultsTwo dbWithAlice (by decide) (by decide)
      (by decide) (by decide)).1,
   (matchResumes_success_inserts 1 reqFive mlResultsTwo dbWithAlice (by decide) (by decide)
      (by decide) (by decide)).2.2.2.1⟩

/-- C2: a matching submission with fewer than 5 or more than 20 files
always answers 400 with the fixed message, never contacts the external
service, leaves the database unchanged and discards every received
temporary file. -/
theorem matchResumes_bad_file_count (userId : Nat) (req : MatchReq) (ml : MLOutcome)
    (failAt : Option Nat) (db : DB)
    (h : req.files.length < 5 ∨ req.files.length > 20) :
    matchResumes userId req ml failAt db =
      { response := .badRequest "Please upload between 5 and 20 resumes"
        db := db
        deletedFiles := req.files.map TempFile.path
        calledML := false } := by
  rcases h with h | h <;> simp [matchResumes, h]

/-- Witness for C2 at a three-file request. -/
theorem matchResumes_bad_file_count_witness :
    reqThree.files.length < 5 ∧
      matchResumes 1 reqThree (.failure "Service Unavailable") none dbWithAlice =
        { response := .badRequest "Please upload between 5 and 20 resumes"
          db := dbWithAlice
          deletedFiles := reqThree.files.map TempFile.path
          calledML := false } :=
  ⟨by decide,
   matchResumes_bad_file_count 1 reqThree (.failure "Service Unavailable") none dbWithAlice
     (Or.inl (by decide))⟩

/-- C5: on every exit path of a matching submission (file-count failure,
missing-field failure, upstream failure, persistence fault at any insert,
and success) the handler unlinks exactly the received temporary files. -/
theorem matchResumes_deletes_all_temp_files (userId : Nat) (req : MatchReq) (ml : MLOutcome)
    (failAt : Option Nat) (db : DB) :
    (matchResumes userId req ml failAt db).deletedFiles = req.files.map TempFile.path := by
  unfold matchResumes
  dsimp only
  split
  · rfl
  split
  · rfl
  cases ml with
  | failure s => rfl
  | success results =>
    dsimp only
    split
    · rfl
    split
    all_goals rfl

/-! ### Claims C3, C4, C10 -/

/-- Run of the login handler when the email already has a row: everything
reduces to the password comparison against the first matching row. -/
theorem login_existing_run (req : LoginReq) (hash : String → String)
    (compare : String → String → Bool) (db : DB) (u : UserRow) (rest : List UserRow)
    (he : jsTruthy req.email = true) (hp : jsTruthy req.password = true)
    (hfind : db.users.filter (fun v => v.email == req.email.getD "") = u :: rest) :
    login req hash compare db =
      if compare (req.password.getD "") u.password then
        (.ok { userId := u.id, email := u.email, role := u.role }
            { id := u.id, name := u.name, email := u.email, role := u.role }, db)
      else (.unauthorized "Invalid email or password", db) := by
  unfold login
  rw [if_neg (by simp [he, hp])]
  dsimp only
  rw [hfind]

/-- C4: a login attempt against an existing email with a password that does
not verify answers 401 with no token and leaves the users table unchanged. -/
theorem login_wrong_password_unauthorized (req : LoginReq) (hash : String → String)
    (compare : String → String → Bool) (db : DB) (u : UserRow) (rest : List UserRow)
    (he : jsTruthy req.email = true) (hp : jsTruthy req.password = true)
    (hfind : db.users.filter (fun v => v.email == req.email.getD "") = u :: rest)
    (hcmp : compare (req.password.getD "") u.password = false) :
    login req hash compare db = (.unauthorized "Invalid email or password", db) := by
  rw [login_existing_run req hash compare db u rest he hp hfind, if_neg (by simp [hcmp])]

/-- Witness for C4: the wrong password for userAlice is rejected and the
state is untouched. -/
theorem login_wrong_password_unauthorized_witness :
    compare0 "wrongpw" userAlice.password = false ∧
      login reqAliceWrong hash0 compare0 dbWithAlice =
        (.unauthorized "Invalid email or password", dbWithAlice) :=
  ⟨by decide,
   login_wrong_password_unauthorized reqAliceWrong hash0 compare0 dbWithAlice userAlice []
     (by decide) (by decide) (by decide) (by decide)⟩

/-- C10: a login attempt against an existing email with a verifying
password answers with the stored row (token and user body carry the stored
role and name), leaves the database unchanged, and the supplied name and
role have no effect on the outcome. -/
theorem login_correct_password_ignores_profile (req : LoginReq) (hash : String → String)
    (compare : String → String → Bool) (db : DB) (u : UserRow) (rest : List UserRow)
    (he : jsTruthy req.email = true) (hp : jsTruthy req.password = true)
    (hfind : db.users.filter (fun v => v.email == req.email.getD "") = u :: rest)
    (hcmp : compare (req.password.getD "") u.password = true) :
    login req hash compare db =
      (.ok { userId := u.id, email := u.email, role := u.role }
          { id := u.id, name := u.name, email := u.email, role := u.role }, db) ∧
    ∀ n r, login { req with name := n, role := r } hash compare db =
      login req hash compare db := by
  have hmain := login_existing_run req hash compare db u rest he hp hfind
  constructor
  · rw [hmain, if_pos hcmp]
  · intro n r
    have hvar := login_existing_run { req with name := n, role := r } hash compare db u rest
      he hp hfind
    rw [hvar, hmain]

/-- Witness for C10: the right password with a conflicting supplied profile
still answers with the stored name and role. -/
theorem login_correct_password_ignores_profile_witness :
    compare0 "secret" userAlice.password = true ∧
      login reqAliceRight hash0 compare0 dbWithAlice =
        (.ok { userId := 1, email := "alice@example.com", role := "Hr" }
            { id := 1, name := some "Alice", email := "alice@example.com", role := "Hr" },
         dbWithAlice) := by
  have h := login_correct_password_ignores_profile reqAliceRight hash0 compare0 dbWithAlice
    userAlice [] (by decide) (by decide) (by decide) (by decide)
  exact ⟨by decide, h.1.trans (by decide)⟩

/-- C3: a login attempt with a previously unseen email inserts exactly one
users row whose role is Hr exactly when the supplied role string
case-insensitively contains the substring hr, and Student in every other
case, including an absent role. -/
theorem login_new_email_creates_user (req : LoginReq) (hash : String → String)
    (compare : String → String → Bool) (db : DB)
    (he : jsTruthy req.email = true) (hp : jsTruthy req.password = true)
    (hnew : db.users.filter (fun v => v.email == req.email.getD "") = [])
    (hfresh : ∀ u ∈ db.users, u.id ≠ db.nextUserId) :
    login req hash compare db =
      (.ok { userId := (newUserRow req hash db.nextUserId).id
             email := (newUserRow req hash db.nextUserId).email
             role := (newUserRow req hash db.nextUserId).role }
          { id := (newUserRow req hash db.nextUserId).id
            name := (newUserRow req hash db.nextUserId).name
            email := (newUserRow req hash db.nextUserId).email
            role := (newUserRow req hash db.nextUserId).role },
       { db with users := db.users ++ [newUserRow req hash db.nextUserId]
                 nextUserId := db.nextUserId + 1 }) ∧
    (newUserRow req hash db.nextUserId).role = normalizeRole req.role ∧
    ((newUserRow req hash db.nextUserId).role = "Hr" ↔
      ∃ r, req.role = some r ∧ jsIncludes (jsToLower r) "hr" = true) ∧
    ((newUserRow req hash db.nextUserId).role = "Hr" ∨
      (newUserRow req hash db.nextUserId).role = "Student") := by
  have hsel : (db.users ++ [newUserRow req hash db.nextUserId]).filter
      (fun v => v.id == db.nextUserId) = [newUserRow req hash db.nextUserId] := by
    rw [List.filter_append, List.filter_eq_nil_iff.mpr, List.nil_append]
    · simp [newUserRow]
    · intro v hv
      simp [hfresh v hv]
  refine ⟨?_, rfl, ?_, ?_⟩
  · unfold login
    rw [if_neg (by simp [he, hp])]
    dsimp only
    rw [hnew]
    dsimp only
    rw [hsel]
  · show normalizeRole req.role = "Hr" ↔ _
    cases hreq : req.role with
    | none => simp +decide [normalizeRole]
    | some r =>
      by_cases hr0 : r = ""
      · subst hr0
        simp +decide [normalizeRole]
      · simp only [normalizeRole, if_neg hr0]
        by_cases hin : jsIncludes (jsToLower r) "hr" = true
        · simp [hin]
        · have hrHr : ¬(r = "Hr") := by
            intro h
            subst h
            exact hin (by decide)
          simp +decide [hin, hrHr]
  · show normalizeRole req.role = "Hr" ∨ normalizeRole req.role = "Student"
    unfold normalizeRole
    rcases req.role with _ | r
    · exact Or.inr rfl
    · dsimp only
      split
      · exact Or.inr rfl
      split
      · exact Or.inl rfl
      · exact Or.inr rfl

/-- Witness for C3: a new email with role Hr Professional creates an Hr
row with the hashed password and answers with its identity. -/
theorem login_new_email_creates_user_witness :
    login reqNewHr hash0 compare0 dbWithAlice =
      (.ok { userId := 2, email := "bob@example.com", role := "Hr" }
          { id := 2, name := some "Bob", email := "bob@example.com", role := "Hr" },
       { users := [userAlice,
           { id := 2, name := some "Bob", email := "bob@example.com"
             password := "h(pw123456)", role := "Hr" }]
         resume_uploads := [], candidates := []
         nextUserId := 3, nextUploadId := 1, nextCandidateId := 1 }) := by
  have h := login_new_email_creates_user reqNewHr hash0 compare0 dbWithAlice
    (by decide) (by decide) (by decide) (by decide)
  exact h.1.trans (by decide)

/-! ### Claim C8 -/

/-- C8: the access guard rejects a request without a bearer token as 401
Missing token, rejects a present token that fails verification as 401
Invalid or expired token, and otherwise admits the request with the decoded
identity attached. -/
theorem authenticateToken_guard (a b : Option String) (verify : String → Option Decoded) :
    (extractBearer a b = none →
      authenticateToken a b verify = .unauthorized "Missing token") ∧
    (∀ t, extractBearer a b = some t → verify t = none →
      authenticateToken a b verify = .unauthorized "Invalid or expired token") ∧
    (∀ t d, extractBearer a b = some t → verify t = some d →
      authenticateToken a b verify = .admitted d) := by
  refine ⟨fun h => ?_, fun t ht hv => ?_, fun t d ht hv => ?_⟩
  · simp [authenticateToken, h]
  · simp [authenticateToken, ht, hv]
  · simp [authenticateToken, ht, hv]

/-- Witness for C8: a missing header, a rejected token and an accepted
token under the stub verifier. -/
theorem authenticateToken_guard_witness :
    authenticateToken none none verifyStub = .unauthorized "Missing token" ∧
    authenticateToken (some "Bearer badtok") none verifyStub =
      .unauthorized "Invalid or expired token" ∧
    authenticateToken (some "Bearer goodtok") none verifyStub =
      .admitted { userId := 1, email := "alice@example.com", role := "Hr" } :=
  ⟨(authenticateToken_guard none none verifyStub).1 (by decide),
   (authenticateToken_guard (some "Bearer badtok") none verifyStub).2.1 "badtok" (by decide)
     (by decide),
   (authenticateToken_guard (some "Bearer goodtok") none verifyStub).2.2 "goodtok"
     { userId := 1, email := "alice@example.com", role := "Hr" } (by decide) (by decide)⟩

/-! ### Claim C7 -/

/-- Under distinct upload ids, filtering the uploads for one candidate and
collapsing to the candidate yields that candidate exactly when some owned
upload matches. -/
theorem filter_map_const_of_nodup (idv userId : Nat) (c : CandidateRow) :
    ∀ ups : List UploadRow, (ups.map UploadRow.id).Nodup →
      (ups.filter fun r => r.id == idv && r.user_id == userId).map (fun _ => c) =
        if ups.any (fun r => r.id == idv && r.user_id == userId) then [c] else [] := by
  intro ups
  induction ups with
  | nil => intro _; rfl
  | cons u us ih =>
    intro hnodup
    rw [List.map_cons, List.nodup_cons] at hnodup
    obtain ⟨hnotin, hnd⟩ := hnodup
    by_cases hu : (u.id == idv && u.user_id == userId) = true
    · have hid : u.id = idv := by
        rw [Bool.and_eq_true, beq_iff_eq, beq_iff_eq] at hu
        exact hu.1
      have hrest : us.filter (fun r => r.id == idv && r.user_id == userId) = [] := by
        rw [List.filter_eq_nil_iff]
        intro r hr hpr
        rw [Bool.and_eq_true, beq_iff_eq, beq_iff_eq] at hpr
        apply hnotin
        have hur : u.id = r.id := by rw [hid, hpr.1]
        rw [hur]
        exact List.mem_map_of_mem UploadRow.id hr
      simp [List.filter_cons, List.any_cons, hu, hrest]
    · simp only [List.filter_cons, List.any_cons, hu, if_false, Bool.false_or]
      exact ih hnd

/-- Under distinct upload ids the SQL join lists exactly the candidates
whose batch is owned by the user. -/
theorem flatMap_join_eq_filter (userId : Nat) (ups : List UploadRow)
    (hnodup : (ups.map UploadRow.id).Nodup) :
    ∀ cands : List CandidateRow,
      (cands.flatMap fun c =>
          (ups.filter fun r => r.id == c.upload_id && r.user_id == userId).map fun _ => c) =
        cands.filter (fun c => ups.any fun r => r.id == c.upload_id && r.user_id == userId) := by
  intro cands
  induction cands with
  | nil => rfl
  | cons c cs ih =>
    rw [List.flatMap_cons, List.filter_cons, ih,
      filter_map_const_of_nodup c.upload_id userId c ups hnodup]
    by_cases h : (ups.any fun r => r.id == c.upload_id && r.user_id == userId) = true
    · simp [h]
    · simp [h]

/-- C7: dashboard stats report the count of the user uploads, the count of
candidates across the user batches, and the rounded mean of their scores,
with 0 instead of an error when the user has no candidates. -/
theorem getDashboardStats_spec (userId : Nat) (db : DB) (S : List CandidateRow)
    (hnodup : (db.resume_uploads.map UploadRow.id).Nodup)
    (hS : S = db.candidates.filter
        (fun c => db.resume_uploads.any fun r => r.id == c.upload_id && r.user_id == userId)) :
    getDashboardStats userId db =
      { totalUploads := (db.resume_uploads.filter fun r => r.user_id == userId).length
        totalCandidates := S.length
        avgScore :=
          if S.isEmpty then 0
          else round ((S.map CandidateRow.score).sum / (S.length : ℚ)) } ∧
    (S = [] → (getDashboardStats userId db).avgScore = 0) := by
  have hjoin : userCandidateJoin userId db = S := by
    rw [hS]
    exact flatMap_join_eq_filter userId db.resume_uploads hnodup db.candidates
  constructor
  · unfold getDashboardStats
    rw [hjoin]
    cases S with
    | nil => rfl
    | cons c cs => rfl
  · intro h
    unfold getDashboardStats
    rw [hjoin, h]

/-- Witness for C7: one batch with two candidates scoring 90 and 80 yields
counts 1 and 2 and the rounded mean 85. -/
theorem getDashboardStats_spec_witness :
    getDashboardStats 1 dbBatch = { totalUploads := 1, totalCandidates := 2, avgScore := 85 } := by
  have h := getDashboardStats_spec 1 dbBatch
    (dbBatch.candidates.filter
      (fun c => dbBatch.resume_uploads.any fun r => r.id == c.upload_id && r.user_id == 1))
    (by decide) rfl
  have hfilter : dbBatch.candidates.filter
      (fun c => dbBatch.resume_uploads.any fun r => r.id == c.upload_id && r.user_id == 1) =
      [candRowOne, candRowTwo] := rfl
  rw [h.1, hfilter]
  simp only [DashboardStats.mk.injEq]
  refine ⟨by decide, by decide, ?_⟩
  norm_num [List.isEmpty_cons, List.map_cons, List.map_nil, List.sum_cons, List.sum_nil,
    List.length_cons, List.length_nil, candRowOne, candRowTwo, round_eq]

/-! ### Claim C6 -/

theorem filter_eq_singleton_of_unique {α : Type} (p : α → Bool) :
    ∀ (l : List α) (u : α), l.Nodup → u ∈ l → p u = true →
      (∀ v ∈ l, p v = true → v = u) → l.filter p = [u] := by
  intro l
  induction l with
  | nil => intro u _ hu; cases hu
  | cons a as ih =>
    intro u hnd hu hpu huniq
    obtain ⟨hnotin, hnd2⟩ := List.nodup_cons.mp hnd
    rcases List.mem_cons.mp hu with rfl | hmem
    · rw [List.filter_cons_of_pos hpu]
      have hval : as.filter p = [] := by
        rw [List.filter_eq_nil_iff]
        intro v hv hpv
        exact hnotin ((huniq v (List.mem_cons_of_mem u hv) hpv) ▸ hv)
      rw [hval]
    · have hpa : p a = false := by
        by_contra hpa
        rw [Bool.not_eq_false] at hpa
        have ha : a = u := huniq a (List.mem_cons_self a as) hpa
        exact hnotin (ha ▸ hmem)
      rw [List.filter_cons_of_neg (by simp [hpa])]
      exact ih u hnd2 hmem hpu (fun v hv hpv => huniq v (List.mem_cons_of_mem a hv) hpv)

/-- The response mapping succeeds and is the pointwise parsed spread when
every stored skills text parses. -/
theorem mapParse_eq_map : ∀ l : List CandidateRow,
    (∀ c ∈ l, (parseSkillList c.matched_skills).isSome = true) →
      mapParse l = some (l.map candidateOutD) := by
  intro l
  induction l with
  | nil => intro _; rfl
  | cons c cs ih =>
    intro h
    obtain ⟨sk, hsk⟩ := Option.isSome_iff_exists.mp (h c (List.mem_cons_self c cs))
    have hout : candidateOut c = some (candidateOutD c) := by
      simp [candidateOut, candidateOutD, hsk]
    simp [mapParse, hout, ih (fun v hv => h v (List.mem_cons_of_mem c hv))]

/-- The rows sorted by ORDER BY rank_position are pairwise ordered. -/
theorem sorted_ranks (l : List CandidateRow) :
    List.Pairwise (fun a b => rankLe a b = true) (l.mergeSort rankLe) := by
  apply List.sorted_mergeSort
  · intro a b c hab hbc
    simp only [rankLe, decide_eq_true_eq] at *
    omega
  · intro a b
    simp only [rankLe]
    rcases Int.le_total a.rank_position b.rank_position with h | h <;> simp [h]

/-- C6: a candidates request for a batch id with no row owned by the caller
answers 404; for a batch owned by the caller it answers the batch row
together with its candidate rows ordered by rank position. -/
theorem getCandidatesForBatch_ownership (userId uploadId : Nat) (db : DB) :
    ((∀ r ∈ db.resume_uploads, ¬(r.id = uploadId ∧ r.user_id = userId)) →
      getCandidatesForBatch userId uploadId db = .notFound "Upload not found") ∧
    (∀ u : UploadRow, (db.resume_uploads.map UploadRow.id).Nodup →
      u ∈ db.resume_uploads → u.id = uploadId → u.user_id = userId →
      (∀ c ∈ db.candidates, c.upload_id = uploadId →
        (parseSkillList c.matched_skills).isSome = true) →
      ∃ outs, getCandidatesForBatch userId uploadId db = .ok u outs ∧
        List.Pairwise (fun a b => a.rank_position ≤ b.rank_position) outs ∧
        ∃ rows : List CandidateRow,
          rows.Perm (db.candidates.filter fun c => c.upload_id == uploadId) ∧
          mapParse rows = some outs) := by
  constructor
  · intro h
    have hempty : db.resume_uploads.filter
        (fun r => r.id == uploadId && r.user_id == userId) = [] := by
      rw [List.filter_eq_nil_iff]
      intro r hr hpr
      rw [Bool.and_eq_true, beq_iff_eq, beq_iff_eq] at hpr
      exact h r hr hpr
    unfold getCandidatesForBatch
    rw [hempty]
  · intro u hnodup hmem hid huser hparse
    have hpu : (fun r : UploadRow => r.id == uploadId && r.user_id == userId) u = true := by
      simp [hid, huser]
    have huniq : ∀ v ∈ db.resume_uploads,
        (fun r : UploadRow => r.id == uploadId && r.user_id == userId) v = true → v = u := by
      intro v hv hpv
      rw [Bool.and_eq_true, beq_iff_eq, beq_iff_eq] at hpv
      exact List.inj_on_of_nodup_map hnodup hv hmem (by rw [hpv.1, hid])
    have hsingle := filter_eq_singleton_of_unique _ db.resume_uploads u
      (List.Nodup.of_map _ hnodup) hmem hpu huniq
    have hparse2 : ∀ c ∈ (db.candidates.filter
        (fun c => c.upload_id == uploadId)).mergeSort rankLe,
        (parseSkillList c.matched_skills).isSome = true := by
      intro c hc
      have hcmem : c ∈ db.candidates.filter (fun c => c.upload_id == uploadId) :=
        (List.mergeSort_perm _ rankLe).mem_iff.mp hc
      obtain ⟨hcdb, hcup⟩ := List.mem_filter.mp hcmem
      exact hparse c hcdb (beq_iff_eq.mp hcup)
    refine ⟨((db.candidates.filter (fun c => c.upload_id == uploadId)).mergeSort
        rankLe).map candidateOutD, ?_, ?_,
      (db.candidates.filter (fun c => c.upload_id == uploadId)).mergeSort rankLe,
      List.mergeSort_perm _ rankLe, mapParse_eq_map _ hparse2⟩
    · unfold getCandidatesForBatch
      rw [hsingle]
      dsimp only
      rw [mapParse_eq_map _ hparse2]
    · rw [List.pairwise_map]
      exact (sorted_ranks (db.candidates.filter (fun c => c.upload_id == uploadId))).imp
        (fun hab => of_decide_eq_true hab)

/-- Witness for C6: user 2 cannot read batch 1 of userAlice, while user 1
receives it. -/
theorem getCandidatesForBatch_ownership_witness :
    getCandidatesForBatch 2 1 dbBatch = .notFound "Upload not found" ∧
    ∃ outs, getCandidatesForBatch 1 1 dbBatch = .ok uploadOne outs := by
  constructor
  · exact (getCandidatesForBatch_ownership 2 1 dbBatch).1 (by decide)
  · obtain ⟨outs, h, -, -⟩ := (getCandidatesForBatch_ownership 1 1 dbBatch).2 uploadOne
      (by decide) (by decide) rfl rfl (by decide)
    exact ⟨outs, h⟩

/-! ### Claim C9 -/

theorem newCandidateRows_skills (uploadId startId : Nat) (es : List MLCandidate) :
    ∀ c ∈ newCandidateRows uploadId startId es, ∃ l, c.matched_skills = stringifySkills l := by
  induction es generalizing startId with
  | nil => simp [newCandidateRows]
  | cons e es ih =>
    intro c hc
    rcases List.mem_cons.mp hc with rfl | hmem
    · exact ⟨e.matched_skills.getD [], rfl⟩
    · exact ih (startId + 1) c hmem

/-- C9: after a successful matching submission against a state in which the
new batch id is fresh, reading the batch back returns, up to the rank
ordering, one candidate per external entry whose matched_skills equals the
entry list of the external service, or [] where that field was absent: the
JSON serialization on insert is undone by the JSON parse on read. -/
theorem matched_skills_roundtrip (userId : Nat) (req : MatchReq) (results : MLResults) (db : DB)
    (hcount : ¬(req.files.length < 5 ∨ req.files.length > 20))
    (hrole : jsTruthy req.jobRole = true)
    (hdesc : jsTruthy req.jobDescription = true)
    (hfreshU : ∀ r ∈ db.resume_uploads, r.id ≠ db.nextUploadId)
    (hfreshC : ∀ c ∈ db.candidates, c.upload_id ≠ db.nextUploadId) :
    ∃ u outs,
      getCandidatesForBatch userId db.nextUploadId
          (matchResumes userId req (.success results) none db).db = .ok u outs ∧
      (outs.map fun o => (o.filename, o.matched_skills)).Perm
        (results.top_candidates.map fun e => (e.filename, e.matched_skills.getD [])) := by
  rw [matchResumes_success_run userId req results db hcount hrole hdesc]
  dsimp only
  have hupfilter : (db.resume_uploads ++
      [({ id := db.nextUploadId, user_id := userId
          job_role := req.jobRole.getD "", job_description := req.jobDescription.getD ""
          total_resumes := results.total_resumes
          required_candidates := parseIntOr req.topN 5 } : UploadRow)]).filter
        (fun r => r.id == db.nextUploadId && r.user_id == userId) =
      [({ id := db.nextUploadId, user_id := userId
          job_role := req.jobRole.getD "", job_description := req.jobDescription.getD ""
          total_resumes := results.total_resumes
          required_candidates := parseIntOr req.topN 5 } : UploadRow)] := by
    rw [List.filter_append, List.filter_eq_nil_iff.mpr, List.nil_append]
    · simp
    · intro r hr
      simp [hfreshU r hr]
  have hcandfilter : (db.candidates ++
      newCandidateRows db.nextUploadId db.nextCandidateId results.top_candidates).filter
        (fun c => c.upload_id == db.nextUploadId) =
      newCandidateRows db.nextUploadId db.nextCandidateId results.top_candidates := by
    rw [List.filter_append, List.filter_eq_nil_iff.mpr, List.nil_append,
      List.filter_eq_self.mpr]
    · intro c hc
      simp [newCandidateRows_upload _ _ _ c hc]
    · intro c hc
      simp [hfreshC c hc]
  have hparse2 : ∀ c ∈ (newCandidateRows db.nextUploadId db.nextCandidateId
      results.top_candidates).mergeSort rankLe,
      (parseSkillList c.matched_skills).isSome = true := by
    intro c hc
    have hcmem : c ∈ newCandidateRows db.nextUploadId db.nextCandidateId
        results.top_candidates :=
      (List.mergeSort_perm _ rankLe).mem_iff.mp hc
    obtain ⟨l, hl⟩ := newCandidateRows_skills _ _ _ c hcmem
    rw [hl, parseSkillList_stringifySkills]
    rfl
  refine ⟨{ id := db.nextUploadId, user_id := userId
            job_role := req.jobRole.getD "", job_description := req.jobDescription.getD ""
            total_resumes := results.total_resumes
            required_candidates := parseIntOr req.topN 5 },
    ((newCandidateRows db.nextUploadId db.nextCandidateId
      results.top_candidates).mergeSort rankLe).map candidateOutD, ?_, ?_⟩
  · unfold getCandidatesForBatch
    dsimp only
    rw [hupfilter]
    dsimp only
    rw [hcandfilter, mapParse_eq_map _ hparse2]
  · rw [List.map_map]
    have h2 := (List.mergeSort_perm (newCandidateRows db.nextUploadId db.nextCandidateId
      results.top_candidates) rankLe).map
      (fun c => (c.filename, (parseSkillList c.matched_skills).getD []))
    rw [newCandidateRows_map_skills] at h2
    exact h2

/-- Witness for C9: the five-file submission with two external entries,
one carrying a two-skill list and one with the field absent. -/
theorem matched_skills_roundtrip_witness :
    ∃ u outs,
      getCandidatesForBatch 1 dbWithAlice.nextUploadId
          (matchResumes 1 reqFive (.success mlResultsTwo) none dbWithAlice).db = .ok u outs ∧
      (outs.map fun o => (o.filename, o.matched_skills)).Perm
        (mlResultsTwo.top_candidates.map fun e => (e.filename, e.matched_skills.getD [])) :=
  matched_skills_roundtrip 1 reqFive mlResultsTwo dbWithAlice (by decide) (by decide) (by decide)
    (by decide) (by decide)

end ResumeMatch
